import Mathlib

/-!
Verification of the attribute-directive compiler in
`maple-core-macro/src/template/attributes.rs`.

The Rust source is a procedural macro working on `syn` token streams.  We
shallowly embed it: a `syn::parse::ParseStream` becomes a `List Token`
consumed left to right, each `syn` parser becomes a function
`List Token → Except ParseError (α × List Token)`, and the `ToTokens`
lowering backend becomes a function producing a list of abstract
instructions mirroring the quoted code fragments.  Value expressions are
opaque to the source component (they are embedded verbatim in the output),
so they are modelled as opaque numeric ids.  Source spans are modelled as
natural numbers carried on identifier tokens, with `0` standing for
`Span.call_site()` (the span of freshly created tokens).
-/

namespace Maple

/-- A `proc_macro2::Ident`: its rendered string and its source span. -/
structure Ident where
  name : String
  span : Nat
deriving DecidableEq

/-- The tokens the attribute grammar consumes.  `exprTok` stands for one
complete value expression (`syn::Expr`), opaque to this component and
identified by a numeric id. -/
inductive Token where
  | ident (name : String) (span : Nat)
  | colon
  | hyphen
  | equals
  | comma
  | exprTok (e : Nat)
deriving DecidableEq

/-- An opaque value expression id (`syn::Expr` is never inspected by this
component, only embedded verbatim into the generated code). -/
abbrev Expr := Nat

/-- A parse error: message plus span (`syn::Error`). -/
structure ParseError where
  msg : String
  span : Nat
deriving DecidableEq

/-- The span of freshly created tokens, `proc_macro2::Span.call_site()`. -/
def callSite : Nat := 0

/-- The span carried by a token; non-ident punctuation gets the default
span, which no claim depends on. -/
def tokSpan : Token → Nat
  | .ident _ sp => sp
  | _ => 0

/-- The identifier spellings that `syn` refuses to parse as a plain
`Ident` (its `accept_as_ident` keyword list); `Ident::parse_any` accepts
them all.  Only membership of `"ref"` and non-membership of ordinary
attribute words matter to the claims. -/
def rustKeywords : List String :=
  ["_", "abstract", "as", "async", "await", "become", "box", "break",
   "const", "continue", "crate", "do", "dyn", "else", "enum", "extern",
   "false", "final", "fn", "for", "if", "impl", "in", "let", "loop",
   "macro", "match", "mod", "move", "mut", "override", "priv", "pub",
   "ref", "return", "Self", "self", "static", "struct", "super", "trait",
   "true", "try", "type", "typeof", "unsafe", "unsized", "use", "virtual",
   "where", "while", "yield"]

/-- Whether a spelling is a Rust keyword (rejected by plain `Ident` parse). -/
def isKeyword (s : String) : Bool := rustKeywords.contains s

/-- `Ident::parse_any` (`input.call(Ident::parse_any)`): consume one
identifier token, keywords permitted. -/
def parseIdentAny : List Token → Except ParseError (Ident × List Token)
  | .ident s sp :: rest => .ok (⟨s, sp⟩, rest)
  | t :: _ => .error ⟨"expected identifier", tokSpan t⟩
  | [] => .error ⟨"expected identifier", callSite⟩

/-- `input.parse::<Ident>()`: consume one identifier token, keywords
rejected (`syn` accept_as_ident check). -/
def parseIdent : List Token → Except ParseError (Ident × List Token)
  | .ident s sp :: rest =>
      if isKeyword s then .error ⟨"expected identifier", sp⟩
      else .ok (⟨s, sp⟩, rest)
  | t :: _ => .error ⟨"expected identifier", tokSpan t⟩
  | [] => .error ⟨"expected identifier", callSite⟩

/-- Represents a html element tag or attribute name (`AttributeName` in the
source): a leading identifier plus the identifiers consumed after hyphens. -/
structure AttributeName where
  tag : Ident
  extended : List Ident
deriving DecidableEq

/-- The hyphen-extension loop of `impl Parse for AttributeName`:
`while input.peek(Token![-]) { extended.push((input.parse()?, input.parse()?)) }`.
The strict `Ident` parse after each hyphen is inlined. -/
def parseExtended (acc : List Ident) : List Token → Except ParseError (List Ident × List Token)
  | .hyphen :: .ident s sp :: rest =>
      if isKeyword s then .error ⟨"expected identifier", sp⟩
      else parseExtended (acc ++ [⟨s, sp⟩]) rest
  | .hyphen :: t :: _ => .error ⟨"expected identifier", tokSpan t⟩
  | [.hyphen] => .error ⟨"expected identifier", callSite⟩
  | ts => .ok (acc, ts)

/-- `impl Parse for AttributeName`: `Ident::parse_any` for the tag, then
the greedy hyphen-extension loop. -/
def parseAttributeName (ts : List Token) : Except ParseError (AttributeName × List Token) :=
  match parseIdentAny ts with
  | .error e => .error e
  | .ok (tag, ts1) =>
    match parseExtended [] ts1 with
    | .error e => .error e
    | .ok (extended, ts2) => .ok (⟨tag, extended⟩, ts2)

/-- `impl fmt::Display for AttributeName`: the tag followed by a hyphen
before every extension segment. -/
def AttributeName.toString (n : AttributeName) : String :=
  n.extended.foldl (fun acc i => acc ++ "-" ++ i.name) n.tag.name

/-- The four attribute forms (`enum AttributeType`). -/
inductive AttributeType where
  | DomAttribute (name : AttributeName)
  | Event (event : String)
  | Bind (prop : String)
  | Ref
deriving DecidableEq

/-- `impl Parse for AttributeType`: parse the full name first; `ref`
classifies immediately; otherwise a peeked colon leads to the qualified
directives `on` and `bind`, any other tag before a colon is the
unknown-directive error spanned at the leading tag; with no colon the
name is a plain DOM attribute. -/
def parseAttributeType (ts : List Token) : Except ParseError (AttributeType × List Token) :=
  match parseAttributeName ts with
  | .error e => .error e
  | .ok (ident, ts1) =>
    let identStr := ident.toString
    if identStr = "ref" then
      .ok (.Ref, ts1)
    else
      match ts1 with
      | .colon :: ts2 =>
        if identStr = "on" then
          match parseIdentAny ts2 with
          | .error e => .error e
          | .ok (event, ts3) => .ok (.Event event.name, ts3)
        else if identStr = "bind" then
          match parseIdentAny ts2 with
          | .error e => .error e
          | .ok (prop, ts3) => .ok (.Bind prop.name, ts3)
        else
          .error ⟨"unknown directive `" ++ identStr ++ "`", ident.tag.span⟩
      | _ => .ok (.DomAttribute ident, ts1)

/-- `struct Attribute`: a classified type plus its value expression (the
`equals_token` carries no information beyond its presence). -/
structure Attribute where
  ty : AttributeType
  expr : Expr
deriving DecidableEq

/-- `input.parse::<Token![=]>()`. -/
def parseEquals : List Token → Except ParseError (Unit × List Token)
  | .equals :: rest => .ok ((), rest)
  | t :: _ => .error ⟨"expected equals sign", tokSpan t⟩
  | [] => .error ⟨"expected equals sign", callSite⟩

/-- `input.parse::<Expr>()`: consumes one opaque expression token. -/
def parseExpr : List Token → Except ParseError (Expr × List Token)
  | .exprTok e :: rest => .ok (e, rest)
  | t :: _ => .error ⟨"expected expression", tokSpan t⟩
  | [] => .error ⟨"expected expression", callSite⟩

/-- `impl Parse for Attribute`: type, equals token, expression, in order;
the first error aborts this attribute. -/
def parseAttribute (ts : List Token) : Except ParseError (Attribute × List Token) :=
  match parseAttributeType ts with
  | .error e => .error e
  | .ok (ty, ts1) =>
    match parseEquals ts1 with
    | .error e => .error e
    | .ok (_, ts2) =>
      match parseExpr ts2 with
      | .error e => .error e
      | .ok (e, ts3) => .ok (⟨ty, e⟩, ts3)

/-- `Punctuated::parse_terminated(Attribute::parse)` on the parenthesized
content, as called by `impl Parse for AttributeList`: repeatedly parse an
attribute and a separating comma until the stream is empty; any element
error is propagated immediately with `?`, aborting the whole list.  Fuel
is the stream length plus one, enough because each loop iteration consumes
at least one token. -/
def parseAttributesAux : Nat → List Token → Except ParseError (List Attribute)
  | 0, _ => .error ⟨"fuel exhausted", callSite⟩
  | _ + 1, [] => .ok []
  | fuel + 1, ts =>
    match parseAttribute ts with
    | .error e => .error e
    | .ok (a, ts1) =>
      match ts1 with
      | [] => .ok [a]
      | .comma :: ts2 =>
        match parseAttributesAux fuel ts2 with
        | .error e => .error e
        | .ok rest => .ok (a :: rest)
      | t :: _ => .error ⟨"expected comma", tokSpan t⟩

/-- The attribute-list parser (`impl Parse for AttributeList`), applied to
the content between the parentheses. -/
def parseAttributeList (ts : List Token) : Except ParseError (List Attribute) :=
  parseAttributesAux (ts.length + 1) ts

/-! ## The lowering backend (`impl ToTokens for Attribute`)

The generated Rust code is modelled as a list of abstract instructions,
one constructor per quoted statement shape. -/

/-- `enum JsPropertyType` in the Bind arm: the value kind of a binding. -/
inductive JsPropertyType where
  | Bool
  | String
deriving DecidableEq

/-- A stringification of an expression appearing in generated code.
`displayFormat e` is `::std::format!("{}", #expr)`: the uniform Display
formatting, not a type-specific one. -/
inductive StrExpr where
  | displayFormat (e : Expr)
deriving DecidableEq

/-- The `convert_into_jsvalue_fn` fragment: how the reactive cell value is
turned into the host native value inside the bind effect closure.
`jsValueFromBool` is `JsValue::from_bool(*signal.get())` (native boolean);
`jsValueFromStrFormat` is
`JsValue::from_str(&format!("{}", signal.get()))` (native string). -/
inductive PropValueConv where
  | jsValueFromBool
  | jsValueFromStrFormat
deriving DecidableEq

/-- The `convert_from_jsvalue_fn` fragment: how the property value read
off the event target is turned back into the cell value kind.
`jsValueAsBool` is `JsValue::as_bool(..)`, `jsValueAsString` is
`JsValue::as_string(..)`, both applied to
`Reflect::get(&event.target().unwrap(), prop)`. -/
inductive FromJsConv where
  | jsValueAsBool
  | jsValueAsString
deriving DecidableEq

/-- The body of a closure registered with `create_effect`. -/
inductive EffectBody where
  /-- `GenericNode::set_attribute(&_el, name, &value)`. -/
  | setAttribute (name : String) (value : StrExpr)
  /-- `GenericNode::set_property(&_el, prop, &conv)`: sets a property, not
  an attribute, reading the current cell value through `conv`. -/
  | setProperty (prop : String) (conv : PropValueConv)
deriving DecidableEq

/-- An event handler passed to `GenericNode::event`. -/
inductive Handler where
  /-- `Box::new(#expr)`: the user expression registered verbatim. -/
  | boxedExpr (e : Expr)
  /-- The bind write-back closure: reads property `targetProp` off the
  event target, converts it with `conv`, and `signal.set`s the result. -/
  | bindWriteback (targetProp : String) (conv : FromJsConv)
deriving DecidableEq

/-- One generated statement. -/
inductive Instr where
  /-- `create_effect(move || ...)`: registers a reactive effect that runs
  once immediately and re-runs on dependency changes. -/
  | createEffect (body : EffectBody)
  /-- `GenericNode::event(&_el, event, handler)`: a one-time event handler
  registration, never re-run. -/
  | registerEvent (event : String) (handler : Handler)
  /-- `let signal: Signal<value_ty> = #expr`: the typed binding of the
  reactive cell at the head of the Bind block. -/
  | signalDecl (valueTy : JsPropertyType) (e : Expr)
  /-- `NodeRef::set(&#expr, _el.clone())`. -/
  | nodeRefSet (e : Expr)
  /-- `syn::Error::new(span, msg).to_compile_error()` spliced into the
  output. -/
  | compileError (span : Nat) (msg : String)
deriving DecidableEq

/-- The property table of the Bind arm:
`match prop.as_str() { "value" => ("input", String), "checked" => ("change", Bool), _ => .. }`,
with `none` standing for the early-return compile-error path. -/
def bindPropertyTable : String → Option (String × JsPropertyType)
  | "value" => some ("input", JsPropertyType.String)
  | "checked" => some ("change", JsPropertyType.Bool)
  | _ => none

/-- `convert_into_jsvalue_fn` selection by value kind. -/
def convertIntoJsValue : JsPropertyType → PropValueConv
  | .Bool => .jsValueFromBool
  | .String => .jsValueFromStrFormat

/-- `convert_from_jsvalue_fn` selection by value kind. -/
def convertFromJsValue : JsPropertyType → FromJsConv
  | .Bool => .jsValueAsBool
  | .String => .jsValueAsString

/-- `impl ToTokens for Attribute`, one arm per variant.  In the Bind arm
the unsupported-property error is created with `syn::Error::new(prop.span(), ..)`;
`prop` is a `String`, whose `Spanned` impl (via `ToTokens`, which renders a
fresh string literal) yields `Span::call_site()`, modelled as `callSite`. -/
def lowerAttribute (a : Attribute) : List Instr :=
  match a.ty with
  | .DomAttribute name =>
      [.createEffect (.setAttribute name.toString (.displayFormat a.expr))]
  | .Event event =>
      [.registerEvent event (.boxedExpr a.expr)]
  | .Bind prop =>
      match bindPropertyTable prop with
      | none =>
          [.compileError callSite ("property `" ++ prop ++ "` is not supported with bind:")]
      | some (eventName, propertyTy) =>
          [.signalDecl propertyTy a.expr,
           .createEffect (.setProperty prop (convertIntoJsValue propertyTy)),
           .registerEvent eventName (.bindWriteback prop (convertFromJsValue propertyTy))]
  | .Ref =>
      [.nodeRefSet a.expr]

/-- Whether an instruction is a reactive-effect registration. -/
def isEffectRegistration : Instr → Bool
  | .createEffect _ => true
  | _ => false

/-! ## Token renderings of names, and basic parser lemmas -/

/-- The token rendering of hyphen-extension segments. -/
def segTokens : List Ident → List Token
  | [] => []
  | i :: is => .hyphen :: .ident i.name i.span :: segTokens is

/-- The token rendering of a whole `AttributeName`. -/
def nameTokens (n : AttributeName) : List Token :=
  .ident n.tag.name n.tag.span :: segTokens n.extended

/-- Whether a token stream starts with a hyphen (the loop guard
`input.peek(Token![-])`). -/
def headHyphen : List Token → Bool
  | .hyphen :: _ => true
  | _ => false

/-- Whether a token is accepted by the strict `Ident` parse: an identifier
token whose spelling is not a keyword. -/
def plainIdentTok : Token → Bool
  | .ident s _ => !(isKeyword s)
  | _ => false

theorem parseExtended_not_hyphen (acc : List Ident) (ts : List Token)
    (h : headHyphen ts = false) :
    parseExtended acc ts = .ok (acc, ts) := by
  cases ts with
  | nil => rfl
  | cons t rest =>
    cases t with
    | hyphen => simp [headHyphen] at h
    | ident s sp => rfl
    | colon => rfl
    | equals => rfl
    | comma => rfl
    | exprTok e => rfl

theorem parseExtended_append (l : List Ident) (acc : List Ident) (ts : List Token)
    (hk : ∀ i ∈ l, isKeyword i.name = false) :
    parseExtended acc (segTokens l ++ ts) = parseExtended (acc ++ l) ts := by
  induction l generalizing acc with
  | nil => simp [segTokens]
  | cons i is ih =>
    have hi : isKeyword i.name = false := hk i (by simp)
    have his : ∀ j ∈ is, isKeyword j.name = false := fun j hj => hk j (by simp [hj])
    simp only [segTokens, List.cons_append, parseExtended, hi, Bool.false_eq_true, if_false]
    rw [List.append_eq, ih _ his]
    simp

theorem parseAttributeName_eq (n : AttributeName) (rest : List Token)
    (hk : ∀ i ∈ n.extended, isKeyword i.name = false)
    (hrest : headHyphen rest = false) :
    parseAttributeName (nameTokens n ++ rest) = .ok (n, rest) := by
  obtain ⟨tag, ext⟩ := n
  simp only [nameTokens, List.cons_append, parseAttributeName, parseIdentAny]
  rw [parseExtended_append ext [] rest hk]
  simp [parseExtended_not_hyphen _ rest hrest]

/-- The dashed concatenation of a list of segment strings: the canonical
source form the spec describes for attribute names. -/
def dashConcat : List String → String
  | [] => ""
  | [s] => s
  | s :: rest => s ++ "-" ++ dashConcat rest

theorem foldl_dash (l : List Ident) (acc : String) :
    List.foldl (fun a i => a ++ "-" ++ i.name) acc l = dashConcat (acc :: l.map Ident.name) := by
  induction l generalizing acc with
  | nil => simp [dashConcat]
  | cons i is ih =>
    simp only [List.foldl, List.map]
    rw [ih]
    cases is with
    | nil => simp [dashConcat]
    | cons j js => simp [dashConcat, String.append_assoc]

/-! ## The claims -/

/-- Claim C1: for every attribute whose directive is a qualified form — a
parsed (possibly hyphen-extended) name that is not the reserved directive
name ref, followed by a colon and an identifier qualifier — classification
yields Event with the qualifier when the leading tag is on, Bind with the
qualifier when it is bind, and otherwise fails with an unknown-directive
error naming the offending tag.  The name is parsed completely, hyphens
included, before the colon is checked, so an input shaped like
data-on:click parses the tag data-on and then takes the unknown-directive
error path; the witness below instantiates exactly that input.  A stream
whose leading name renders to ref is excluded here because the grammar
makes ref its own directive alternative, classified before the colon is
ever inspected (claim C5). -/
theorem qualified_directive_classification (n : AttributeName) (q : String) (qsp : Nat)
    (rest : List Token)
    (hk : ∀ i ∈ n.extended, isKeyword i.name = false)
    (href : AttributeName.toString n ≠ "ref") :
    parseAttributeType (nameTokens n ++ .colon :: .ident q qsp :: rest) =
      (if AttributeName.toString n = "on" then .ok (.Event q, rest)
       else if AttributeName.toString n = "bind" then .ok (.Bind q, rest)
       else .error ⟨"unknown directive `" ++ AttributeName.toString n ++ "`", n.tag.span⟩) := by
  have hname := parseAttributeName_eq n (.colon :: .ident q qsp :: rest) hk rfl
  by_cases hon : AttributeName.toString n = "on"
  · simp [parseAttributeType, hname, parseIdentAny, href, hon]
  · by_cases hbind : AttributeName.toString n = "bind"
    · simp [parseAttributeType, hname, parseIdentAny, href, hon, hbind]
    · simp [parseAttributeType, hname, href, hon, hbind]

/-- Witness for claim C1 at the input data-on:click: the tag data-on is
parsed fully before the colon, and the unknown-directive error names it. -/
theorem qualified_directive_classification_witness :
    parseAttributeType [.ident "data" 1, .hyphen, .ident "on" 2, .colon, .ident "click" 3] =
      .error ⟨"unknown directive `data-on`", 1⟩ := by
  have h := qualified_directive_classification ⟨⟨"data", 1⟩, [⟨"on", 2⟩]⟩ "click" 3 []
    (by decide) (by decide)
  exact h.trans rfl

/-- Claim C2: lowering a Bind attribute with a supported property emits the
typed reactive-cell binding followed by exactly two synchronized halves:
one reactive-effect registration whose closure converts the current cell
value to the host native representation — Boolean kind through
JsValue::from_bool, String kind through JsValue::from_str of the Display
formatting — and sets it as a property, not an attribute, under the
property name; and one one-time event-listener registration under the
resolved change-event name — input for value, change for checked — whose
handler reads that same property off the event target, converts it back to
the value kind, and writes it into the reactive cell.  The last two
conjuncts record that exactly one reactive-effect registration appears, so
the listener half is registered once and is not wrapped in an effect. -/
theorem bind_lowering_two_halves (e : Expr) :
    lowerAttribute ⟨.Bind "value", e⟩ =
      [.signalDecl .String e,
       .createEffect (.setProperty "value" .jsValueFromStrFormat),
       .registerEvent "input" (.bindWriteback "value" .jsValueAsString)] ∧
    lowerAttribute ⟨.Bind "checked", e⟩ =
      [.signalDecl .Bool e,
       .createEffect (.setProperty "checked" .jsValueFromBool),
       .registerEvent "change" (.bindWriteback "checked" .jsValueAsBool)] ∧
    ((lowerAttribute ⟨.Bind "value", e⟩).filter isEffectRegistration).length = 1 ∧
    ((lowerAttribute ⟨.Bind "checked", e⟩).filter isEffectRegistration).length = 1 :=
  ⟨rfl, rfl, rfl, rfl⟩

/-- Claim C3: the binding property table maps exactly value to the change
event input with value kind String and checked to the change event change
with value kind Boolean, and for every other property lowering emits no
binding instructions and exactly one compile-time diagnostic naming the
unsupported property.  The final clause of the claim — that the diagnostic
is located at the property token — is however violated by the code: the
error is created with prop.span() where prop is a String, and the Spanned
blanket implementation over ToTokens renders a fresh string literal whose
span is Span::call_site(), so the original property-token span (7 in this
failing input) is lost and the diagnostic lands at the call site. -/
theorem bind_unsupported_property_diagnostic :
    bindPropertyTable "value" = some ("input", JsPropertyType.String) ∧
    bindPropertyTable "checked" = some ("change", JsPropertyType.Bool) ∧
    bindPropertyTable "foo" = none ∧
    parseAttribute [.ident "bind" 1, .colon, .ident "foo" 7, .equals, .exprTok 0] =
      .ok (⟨.Bind "foo", 0⟩, []) ∧
    lowerAttribute ⟨.Bind "foo", 0⟩ =
      [.compileError callSite ("property `foo` is not supported with bind:")] ∧
    callSite ≠ 7 :=
  ⟨rfl, rfl, rfl, rfl, rfl, by decide⟩

/-- Counterexample to claim C4 as stated: in the attribute list
(on:, class=expr) the first attribute fails to parse (the qualifier after
the colon is missing), and the whole list parse then fails with that very
error, so the well-formed sibling class=expr — shown parseable on its own
by the first conjunct — is never parsed, let alone lowered.  The source
uses parse_terminated, whose question-mark operator propagates the first
element error and aborts the list. -/
theorem attribute_list_abort_counterexample :
    parseAttribute [.ident "class" 5, .equals, .exprTok 1] =
      .ok (⟨.DomAttribute ⟨⟨"class", 5⟩, []⟩, 1⟩, []) ∧
    parseAttributeList
        [.ident "on" 1, .colon, .comma, .ident "class" 5, .equals, .exprTok 1] =
      .error ⟨"expected identifier", 0⟩ :=
  ⟨rfl, rfl⟩

/-- Claim C4 as amended: for every attribute list whose first attribute
fails to parse, the entire list parse fails with exactly that single
error; sibling attributes are neither parsed nor lowered.  Parse errors
are therefore not local to one attribute. -/
theorem attribute_list_first_error_aborts (ts : List Token) (e : ParseError)
    (hne : ts ≠ []) (h : parseAttribute ts = .error e) :
    parseAttributeList ts = .error e := by
  cases ts with
  | nil => exact absurd rfl hne
  | cons t ts2 =>
    unfold parseAttributeList parseAttributesAux
    rw [h]

/-- Witness for the amended claim C4 at the list (on:, class=expr). -/
theorem attribute_list_first_error_aborts_witness :
    parseAttributeList [.ident "on" 1, .colon, .comma, .ident "class" 5, .equals, .exprTok 1] =
      .error ⟨"expected identifier", 0⟩ :=
  attribute_list_first_error_aborts _ _ (by decide) rfl

/-- Claim C5: a parsed directive name classifies as Ref exactly when its
rendered string equals ref; the classification happens on the rendered
name alone, before and without any check for a following colon or
qualifier, which the right-to-left direction expresses by holding for an
arbitrary remaining stream — including one that starts with a colon and
carries no qualifier at all, as in the witness below. -/
theorem ref_classification (n : AttributeName) (rest : List Token)
    (hk : ∀ i ∈ n.extended, isKeyword i.name = false)
    (hrest : headHyphen rest = false) :
    parseAttributeType (nameTokens n ++ rest) = .ok (.Ref, rest) ↔
      AttributeName.toString n = "ref" := by
  have hname := parseAttributeName_eq n rest hk hrest
  unfold parseAttributeType
  rw [hname]
  by_cases h : AttributeName.toString n = "ref"
  · simp [h]
  · dsimp only
    rw [if_neg h]
    simp only [h, iff_false]
    intro hc
    cases rest with
    | nil => simp at hc
    | cons t ts =>
      cases t with
      | colon =>
        dsimp only at hc
        by_cases hon : AttributeName.toString n = "on"
        · rw [if_pos hon] at hc
          cases hpi : parseIdentAny ts with
          | ok v => rw [hpi] at hc; simp at hc
          | error e => rw [hpi] at hc; simp at hc
        · rw [if_neg hon] at hc
          by_cases hbind : AttributeName.toString n = "bind"
          · rw [if_pos hbind] at hc
            cases hpi : parseIdentAny ts with
            | ok v => rw [hpi] at hc; simp at hc
            | error e => rw [hpi] at hc; simp at hc
          · rw [if_neg hbind] at hc
            simp at hc
      | ident s sp => simp at hc
      | hyphen => simp [headHyphen] at hrest
      | equals => simp at hc
      | comma => simp at hc
      | exprTok e => simp at hc

/-- Witness for claim C5: the name ref followed by a bare colon still
classifies as Ref, the colon being left unconsumed. -/
theorem ref_classification_witness :
    parseAttributeType [.ident "ref" 1, .colon] = .ok (.Ref, [.colon]) := by
  exact (ref_classification ⟨⟨"ref", 1⟩, []⟩ [.colon] (by decide) rfl).mpr rfl

/-- Claim C6: lowering a DomAttribute emits a single reactive-effect
registration whose closure stringifies the value expression with the
uniform Display formatting and sets it as an attribute of the element
under the canonical dashed rendering of the name; nothing else is
emitted for that attribute. -/
theorem dom_attribute_lowering (n : AttributeName) (e : Expr) :
    lowerAttribute ⟨.DomAttribute n, e⟩ =
      [.createEffect (.setAttribute n.toString (.displayFormat e))] := rfl

/-- Claim C7: lowering an Event attribute emits exactly one one-time
registration of the boxed expression as handler for the given event name,
and no reactive-effect registration at all, so the handler is registered
once and never re-run on dependency changes. -/
theorem event_lowering (ev : String) (e : Expr) :
    lowerAttribute ⟨.Event ev, e⟩ = [.registerEvent ev (.boxedExpr e)] ∧
    (lowerAttribute ⟨.Event ev, e⟩).filter isEffectRegistration = [] :=
  ⟨rfl, rfl⟩

/-- Claim C8: a successfully parsed AttributeName built from one leading
identifier and any further hyphen-separated identifier segments renders,
through the Display implementation, exactly to the dashed concatenation of
its segments: parse followed by display round-trips to the canonical
dashed source form. -/
theorem attribute_name_roundtrip (tag : Ident) (segs : List Ident)
    (hk : ∀ i ∈ segs, isKeyword i.name = false) :
    parseAttributeName (nameTokens ⟨tag, segs⟩) = .ok (⟨tag, segs⟩, []) ∧
    AttributeName.toString ⟨tag, segs⟩ = dashConcat (tag.name :: segs.map Ident.name) := by
  constructor
  · have h := parseAttributeName_eq ⟨tag, segs⟩ [] hk rfl
    simpa using h
  · exact foldl_dash segs tag.name

/-- Witness for claim C8 at the three-segment name a-b-c. -/
theorem attribute_name_roundtrip_witness :
    parseAttributeName [.ident "a" 1, .hyphen, .ident "b" 2, .hyphen, .ident "c" 3] =
      .ok (⟨⟨"a", 1⟩, [⟨"b", 2⟩, ⟨"c", 3⟩]⟩, []) ∧
    AttributeName.toString ⟨⟨"a", 1⟩, [⟨"b", 2⟩, ⟨"c", 3⟩]⟩ = "a-b-c" := by
  have h := attribute_name_roundtrip ⟨"a", 1⟩ [⟨"b", 2⟩, ⟨"c", 3⟩] (by decide)
  exact ⟨h.1, h.2.trans rfl⟩

/-- Claim C9: classification of a bind directive never consults the
property table — every identifier qualifier p classifies successfully as
Bind with property p — and the unsupported-property check with its
diagnostic happens only later, during lowering, where any property other
than value and checked produces the single compile error naming it. -/
theorem bind_classification_defers_property_check :
    (∀ (p : String) (bsp psp : Nat) (rest : List Token),
      parseAttributeType (.ident "bind" bsp :: .colon :: .ident p psp :: rest) =
        .ok (.Bind p, rest)) ∧
    (∀ (p : String) (e : Expr), p ≠ "value" → p ≠ "checked" →
      lowerAttribute ⟨.Bind p, e⟩ =
        [.compileError callSite ("property `" ++ p ++ "` is not supported with bind:")]) := by
  constructor
  · intro p bsp psp rest
    rfl
  · intro p e hp1 hp2
    have htab : bindPropertyTable p = none := by
      unfold bindPropertyTable
      split <;> simp_all
    simp [lowerAttribute, htab]

/-- Witness for claim C9 at the unsupported property foo: bind:foo
classifies fine, and only lowering produces the diagnostic. -/
theorem bind_classification_defers_property_check_witness :
    parseAttributeType [.ident "bind" 1, .colon, .ident "foo" 2] = .ok (.Bind "foo", []) ∧
    lowerAttribute ⟨.Bind "foo", 3⟩ =
      [.compileError callSite ("property `foo` is not supported with bind:")] :=
  ⟨bind_classification_defers_property_check.1 "foo" 1 2 [],
   bind_classification_defers_property_check.2 "foo" 3 (by decide) (by decide)⟩

/-- Claim C10: hyphen extension in the directive name parser is greedy
with no shorter-name fallback: whenever the token after a consumed hyphen
is not a plain non-keyword identifier — a keyword-spelled identifier,
other punctuation, or another hyphen — the whole AttributeName parse fails
with a parse error instead of returning the segments read so far, even
though the leading segment itself permits keyword-like spellings. -/
theorem hyphen_extension_no_fallback (n : AttributeName) (t : Token) (rest : List Token)
    (hk : ∀ i ∈ n.extended, isKeyword i.name = false)
    (ht : plainIdentTok t = false) :
    ∃ e, parseAttributeName (nameTokens n ++ .hyphen :: t :: rest) = .error e := by
  obtain ⟨tag, ext⟩ := n
  simp only [nameTokens, List.cons_append, parseAttributeName, parseIdentAny]
  rw [parseExtended_append ext [] (.hyphen :: t :: rest) hk]
  cases t with
  | ident s sp =>
    have hks : isKeyword s = true := by
      simpa [plainIdentTok] using ht
    simp [parseExtended, hks]
  | colon => simp [parseExtended]
  | hyphen => simp [parseExtended]
  | equals => simp [parseExtended]
  | comma => simp [parseExtended]
  | exprTok e => simp [parseExtended]

/-- Witness for claim C10 at the input data-ref: ref is a keyword, so the
strict identifier parse after the hyphen rejects it and the whole name
parse fails. -/
theorem hyphen_extension_no_fallback_witness :
    ∃ e, parseAttributeName [.ident "data" 1, .hyphen, .ident "ref" 2] = .error e :=
  hyphen_extension_no_fallback ⟨⟨"data", 1⟩, []⟩ (.ident "ref" 2) [] (by decide) (by decide)

end Maple
